import Mathlib

/-!
Verification development for the x402sync Starknet transfer-event ingestion
pipeline. The definitions below are a shallow embedding of the TypeScript
source (src/trigger/chains/starknet/helpers.ts = part_003,
src/trigger/fetch/apibara/helpers.ts, src/trigger/chains/starknet/fetch.ts =
part_002, src/trigger/fetch/apibara/fetch.ts): raw events, the felt
normalization helpers from starknet.js (`num.toBigInt`, `num.toHex`), the
Transfer-event decoder in its two encodings, the block/transaction resolution
pass with its retry wrapper, the pagination loop, and the facilitator filter.

Modelling conventions:
* JavaScript `bigint` values are `Nat` (all felts are unsigned).
* `Map` caches are association lists queried with `List.lookup`; the source
  writes each key at most once (keys are pre-deduplicated), so lookup
  semantics coincide.
* A thrown JS exception is `Except.error`; `return null` is `Except.ok none`.
* `event.keys` / `event.data` are modelled as always-present arrays
  (`List String`); the `getEvents` wire format always materializes both.
* JS `Number(bigint)` conversion (used for the record's `amount` field) is
  modelled exactly by `jsNumberOfNat`: round-to-nearest-even at 53 bits of
  precision, the identity below `2 ^ 53`.
-/

namespace X402Sync

/-! ### Felt parsing and hex rendering (starknet.js `num.toBigInt` / `num.toHex`) -/

/-- One hexadecimal digit, accepting both cases, as `BigInt` does. -/
def hexDigit? (c : Char) : Option Nat :=
  if '0' ≤ c ∧ c ≤ '9' then some (c.toNat - '0'.toNat)
  else if 'a' ≤ c ∧ c ≤ 'f' then some (c.toNat - 'a'.toNat + 10)
  else if 'A' ≤ c ∧ c ≤ 'F' then some (c.toNat - 'A'.toNat + 10)
  else none

/-- One decimal digit. -/
def decDigit? (c : Char) : Option Nat :=
  if '0' ≤ c ∧ c ≤ '9' then some (c.toNat - '0'.toNat) else none

/-- Fold a digit list in the given base; any invalid character aborts,
as `BigInt(string)` throws on malformed input. -/
def digitsToNat? (base : Nat) (digit? : Char → Option Nat) :
    List Char → Nat → Option Nat
  | [], acc => some acc
  | c :: cs, acc =>
    match digit? c with
    | some d => digitsToNat? base digit? cs (acc * base + d)
    | none => none

/-- `num.toBigInt` on a string, i.e. JavaScript `BigInt(s)` restricted to the
shapes the pipeline feeds it: `""` is `0n`, a `0x`/`0X` prefix selects
hexadecimal, otherwise decimal. (`0b`/`0o` prefixes, surrounding whitespace
and signs do not occur for felts and are outside the model.) `none` models a
thrown `SyntaxError`. -/
def toBigInt? (s : String) : Option Nat :=
  match s.data with
  | [] => some 0
  | '0' :: 'x' :: rest =>
    if rest = [] then none else digitsToNat? 16 hexDigit? rest 0
  | '0' :: 'X' :: rest =>
    if rest = [] then none else digitsToNat? 16 hexDigit? rest 0
  | l => digitsToNat? 10 decDigit? l 0

/-- `num.toHex`: `'0x' + n.toString(16)`, minimal lowercase digits. -/
def toHex (n : Nat) : String :=
  "0x" ++ String.mk (Nat.toDigits 16 n)

/-! ### JavaScript `Number(bigint)` -/

/-- Base-2 logarithm with explicit fuel (structural recursion, so that the
kernel can evaluate it on large literals). -/
def log2Fuel : Nat → Nat → Nat
  | 0, _ => 0
  | fuel + 1, n => if n < 2 then 0 else log2Fuel fuel (n / 2) + 1

/-- Position of the most significant bit of `n` (0 for `n < 2`). -/
def natLog2 (n : Nat) : Nat := log2Fuel n n

/-- The value of the IEEE-754 binary64 number nearest to the nonnegative
integer `n` (ties to even), i.e. JavaScript `Number(n)` for
`n < 2 ^ 1024`. Exactly `n` whenever `n < 2 ^ 53`. -/
def jsNumberOfNat (n : Nat) : Nat :=
  if n < 2 ^ 53 then n
  else
    let e := natLog2 n - 52
    let q := n / 2 ^ e
    let r := n % 2 ^ e
    if 2 * r < 2 ^ e then q * 2 ^ e
    else if 2 ^ e < 2 * r then (q + 1) * 2 ^ e
    else if q % 2 = 0 then q * 2 ^ e else (q + 1) * 2 ^ e

/-! ### Data model -/

/-- A raw event as returned by `starknet_getEvents`. -/
structure RawEvent where
  keys : List String
  data : List String
  block_number : Nat
  transaction_hash : String
  deriving DecidableEq, Repr

/-- The slice of `getBlockWithTxHashes` the pipeline reads. -/
structure BlockMeta where
  timestamp : Nat
  deriving DecidableEq, Repr

/-- The slice of `getTransactionByHash` the pipeline reads; either field can
be absent (`undefined`) depending on the transaction type. -/
structure TxMeta where
  sender_address : Option String
  account_address : Option String
  deriving DecidableEq, Repr

structure TokenConfig where
  address : String
  decimals : Nat
  deriving DecidableEq, Repr

structure FacilitatorConfig where
  address : String
  token : TokenConfig
  deriving DecidableEq, Repr

structure Facilitator where
  id : String
  deriving DecidableEq, Repr

structure SyncConfig where
  chain : String
  provider : String
  limit : Nat
  deriving DecidableEq, Repr

/-- The normalized transfer record (`TransferEventData`). `block_timestamp`
is a JS `Date` as milliseconds since epoch. -/
structure TransferEventData where
  address : String
  transaction_from : String
  sender : String
  recipient : String
  amount : Nat
  block_timestamp : Nat
  tx_hash : String
  chain : String
  provider : String
  decimals : Nat
  facilitator_id : String
  log_index : Nat
  deriving DecidableEq, Repr

/-! ### The decoder (`parseTransferEventWithCache` / `parseTransferEvent`) -/

/-- JS `x || '0x0'` where `x` is an optional array element: `undefined` and
the falsy empty string both fall back to `'0x0'`. -/
def jsOrHexZero : Option String → String
  | some s => if s = "" then "0x0" else s
  | none => "0x0"

/-- JS `x || dflt` on an optional string: `undefined` and `""` are falsy. -/
def jsOrStr (a : Option String) (dflt : String) : String :=
  match a with
  | some s => if s = "" then dflt else s
  | none => dflt

/-- JS `tx.sender_address || tx.account_address || dflt`. -/
def jsOr3 (a b : Option String) (dflt : String) : String :=
  jsOrStr a (jsOrStr b dflt)

/-- `num.toBigInt` as an effectful step: a parse failure is a thrown
exception. -/
def felt! (s : String) : Except String Nat :=
  match toBigInt? s with
  | some n => Except.ok n
  | none => Except.error ("Cannot convert " ++ s ++ " to a BigInt")

/-- The block-timestamp resolution with its fallback (part_003 lines
212–215): `block ? new Date(block.timestamp * 1000) : new Date()`. -/
def resolvedBlockTs (blockCache : List (Nat × BlockMeta)) (blockNumber : Nat)
    (nowMs : Nat) : Nat :=
  match blockCache.lookup blockNumber with
  | some block => block.timestamp * 1000
  | none => nowMs

/-- The transaction-submitter resolution with its fallback (part_003 lines
218–224): start from the configured facilitator address, overridden by
`tx.sender_address || tx.account_address || transactionFrom` on a cache
hit. -/
def resolvedTxFrom (txCache : List (String × TxMeta)) (txHash : String)
    (facilitatorAddress : String) : String :=
  match txCache.lookup txHash with
  | some tx => jsOr3 tx.sender_address tx.account_address facilitatorAddress
  | none => facilitatorAddress

/-- The shared body of `parseTransferEventWithCache` (part_003, lines
182–239) and `parseTransferEvent` (apibara/helpers.ts, lines 155–209): format
detection on `keys.length`, field extraction, u256 reconstruction, cache
lookups with their fallbacks, and record construction. `nowMs` is the wall
clock read by `new Date()`. -/
def parseEventCore (event : RawEvent) (eventIndex : Nat) (config : SyncConfig)
    (facilitator : Facilitator) (facilitatorConfig : FacilitatorConfig)
    (blockCache : List (Nat × BlockMeta)) (txCache : List (String × TxMeta))
    (nowMs : Nat) : Except String (Option TransferEventData) := do
  let fields? ←
    if 3 ≤ event.keys.length then do
      -- Option A: indexed from/to in keys
      let fromN ← felt! (event.keys.getD 1 "")
      let toN ← felt! (event.keys.getD 2 "")
      let low ← felt! (jsOrHexZero (event.data.get? 0))
      let high ← felt! (jsOrHexZero (event.data.get? 1))
      pure (some (toHex fromN, toHex toN, low, high))
    else
      -- Option B: from/to in data (non-indexed)
      if event.data.length < 4 then
        pure none
      else do
        let fromN ← felt! (event.data.getD 0 "")
        let toN ← felt! (event.data.getD 1 "")
        let low ← felt! (jsOrHexZero (event.data.get? 2))
        let high ← felt! (jsOrHexZero (event.data.get? 3))
        pure (some (toHex fromN, toHex toN, low, high))
  match fields? with
  | none => pure none
  | some (fromAddress, toAddress, amountLow, amountHigh) =>
    let amount := amountLow + amountHigh * 2 ^ 128
    let blockTimestamp := resolvedBlockTs blockCache event.block_number nowMs
    let transactionFrom :=
      resolvedTxFrom txCache event.transaction_hash facilitatorConfig.address
    let tfN ← felt! transactionFrom
    pure (some
      { address := facilitatorConfig.token.address
        transaction_from := toHex tfN
        sender := fromAddress
        recipient := toAddress
        amount := jsNumberOfNat amount
        block_timestamp := blockTimestamp
        tx_hash := event.transaction_hash
        chain := config.chain
        provider := config.provider
        decimals := facilitatorConfig.token.decimals
        facilitator_id := facilitator.id
        log_index := eventIndex })

/-- `parseTransferEventWithCache` (part_003): additionally rejects events
with an empty `keys` array before format detection. -/
def parseTransferEventWithCache (event : RawEvent) (eventIndex : Nat)
    (config : SyncConfig) (facilitator : Facilitator)
    (facilitatorConfig : FacilitatorConfig) (blockCache : List (Nat × BlockMeta))
    (txCache : List (String × TxMeta)) (nowMs : Nat) :
    Except String (Option TransferEventData) :=
  if event.keys.length < 1 then Except.ok none
  else parseEventCore event eventIndex config facilitator facilitatorConfig
    blockCache txCache nowMs

/-- `parseTransferEvent` (apibara/helpers.ts): only guards against an absent
`keys` array, which the list model makes vacuous. -/
def parseTransferEvent (event : RawEvent) (eventIndex : Nat)
    (config : SyncConfig) (facilitator : Facilitator)
    (facilitatorConfig : FacilitatorConfig) (blockCache : List (Nat × BlockMeta))
    (txCache : List (String × TxMeta)) (nowMs : Nat) :
    Except String (Option TransferEventData) :=
  parseEventCore event eventIndex config facilitator facilitatorConfig
    blockCache txCache nowMs

/-- `feltToAddress` (part_003 lines 245–248): felt string to canonical hex
address. -/
def feltToAddress (felt : String) : Except String String := do
  let bn ← felt! felt
  pure (toHex bn)

/-- `u256FromFelts` (part_003 lines 253–257): reconstruct a u256 from its
low/high felt strings as `lowBn + (highBn << 128)`. -/
def u256FromFelts (low high : String) : Except String Nat := do
  let lowBn ← felt! low
  let highBn ← felt! high
  pure (lowBn + highBn * 2 ^ 128)

/-! ### Retry wrapper (`retryWithBackoff`, part_003 lines 15–47) -/

/-- `p` occurs as a contiguous run at the start of `l`. -/
def startsWithChars : List Char → List Char → Bool
  | [], _ => true
  | _ :: _, [] => false
  | p :: ps, c :: cs => p == c && startsWithChars ps cs

/-- JS `hay.includes(pat)` on character lists. -/
def hasSubstring (pat : List Char) : List Char → Bool
  | [] => startsWithChars pat []
  | c :: cs => startsWithChars pat (c :: cs) || hasSubstring pat cs

/-- The rate-limit signature test applied to `String(error?.message || error)`
(part_003 lines 24–29). -/
def isRateLimitMsg (msg : String) : Bool :=
  hasSubstring "Rate limit".data msg.data ||
  hasSubstring "-32097".data msg.data ||
  hasSubstring "429".data msg.data ||
  hasSubstring "compute units per second".data msg.data

/-- Result of a `retryWithBackoff` run: the JS outcome (`Except.error` models
a rethrown exception, `Except.ok none` the `return null` paths) together with
the list of backoff delays slept, in order. -/
structure RetryResult (α : Type) where
  outcome : Except String (Option α)
  sleeps : List Nat
  deriving Repr

/-- The attempt loop of `retryWithBackoff`. `fn i` is what the wrapped
operation does on its `i`-th invocation; `fuel` counts the remaining loop
iterations and equals `maxRetries - attempt` on every reachable call, so the
`fuel = 0` case is exactly the loop exiting with `return null` (line 46). -/
def retryFrom {α : Type} (fn : Nat → Except String α) (maxRetries baseDelay : Nat) :
    Nat → Nat → RetryResult α
  | 0, _ => ⟨Except.ok none, []⟩
  | fuel + 1, attempt =>
    match fn attempt with
    | Except.ok v => ⟨Except.ok (some v), []⟩
    | Except.error e =>
      if isRateLimitMsg e && decide (attempt < maxRetries - 1) then
        -- Exponential backoff for rate limits
        let delay := baseDelay * 2 ^ attempt
        let rest := retryFrom fn maxRetries baseDelay fuel (attempt + 1)
        ⟨rest.outcome, delay :: rest.sleeps⟩
      else if attempt == maxRetries - 1 then
        -- Failed all retries
        ⟨Except.ok none, []⟩
      else
        -- Non-rate-limit error, throw immediately
        ⟨Except.error e, []⟩

/-- `retryWithBackoff fn maxRetries baseDelay` (part_003 lines 15–47). -/
def retryWithBackoff {α : Type} (fn : Nat → Except String α)
    (maxRetries : Nat := 3) (baseDelay : Nat := 1000) : RetryResult α :=
  retryFrom fn maxRetries baseDelay maxRetries 0

/-! ### Resolution pass (`parseStarknetEvents` steps 1–4) -/

/-- `[...new Set(l)]`: deduplicate keeping first occurrences, in insertion
order. -/
def insertUniq {α : Type} [DecidableEq α] (acc : List α) (x : α) : List α :=
  if x ∈ acc then acc else acc ++ [x]

/-- JS `[...new Set(l)]`. -/
def uniqueList {α : Type} [DecidableEq α] (l : List α) : List α :=
  l.foldl insertUniq []

/-- Step 1: the distinct block numbers, i.e. the exact argument list on which
`provider.getBlockWithTxHashes` is invoked (once per element, each wrapped in
`retryWithBackoff`). -/
def uniqueBlockNumbers (events : List RawEvent) : List Nat :=
  uniqueList (events.map (·.block_number))

/-- Step 3: the distinct transaction hashes, i.e. the exact argument list on
which `provider.getTransactionByHash` is invoked (once per element). -/
def uniqueTxHashes (events : List RawEvent) : List String :=
  uniqueList (events.map (·.transaction_hash))

/-- Steps 2/4: populate a cache from the per-key lookup outcomes.
`lookup k` is the value of `retryWithBackoff (() => remoteFetch k)`: `some`
on success, `none` when all retries failed, in which case the source's
`if (block) cache.set(...)` guard skips the key entirely. One cons per key
models one lookup invocation. -/
def buildCache {κ β : Type} (lookup : κ → Option β) : List κ → List (κ × β)
  | [] => []
  | k :: ks =>
    match lookup k with
    | some b => (k, b) :: buildCache lookup ks
    | none => buildCache lookup ks

/-! ### Batch loop (`parseStarknetEvents` step 5) -/

/-- One iteration of the step-5 `for` loop: a record is kept only when the
decoder returns one; a `null` return or a thrown error (caught by the
per-event `try`/`catch`) contributes nothing. -/
def keptRecord (res : Except String (Option TransferEventData)) :
    Option TransferEventData :=
  match res with
  | Except.ok (some r) => some r
  | Except.ok none => none
  | Except.error _ => none

/-- Step 5 of `parseStarknetEvents`: decode every event at its index,
collecting the successes in order. -/
def parseEventsLoop (events : List RawEvent) (config : SyncConfig)
    (facilitator : Facilitator) (facilitatorConfig : FacilitatorConfig)
    (blockCache : List (Nat × BlockMeta)) (txCache : List (String × TxMeta))
    (nowMs : Nat) : List TransferEventData :=
  events.enum.filterMap fun p =>
    keptRecord (parseTransferEventWithCache p.2 p.1 config facilitator
      facilitatorConfig blockCache txCache nowMs)

/-- `parseStarknetEvents` (part_003 lines 53–144), with the two remote
lookups abstracted to their retry-wrapped outcomes `blockLookup`/`txLookup`
(a non-rate-limit throw inside the resolution pass would reject the whole
`Promise.all` and abort the function; that path is outside this model). -/
def parseStarknetEvents (events : List RawEvent) (config : SyncConfig)
    (facilitator : Facilitator) (facilitatorConfig : FacilitatorConfig)
    (blockLookup : Nat → Option BlockMeta) (txLookup : String → Option TxMeta)
    (nowMs : Nat) : List TransferEventData :=
  if events.length = 0 then []
  else
    let blockCache := buildCache blockLookup (uniqueBlockNumbers events)
    let txCache := buildCache txLookup (uniqueTxHashes events)
    parseEventsLoop events config facilitator facilitatorConfig blockCache
      txCache nowMs

/-! ### Pagination loop (part_002 lines 54–96, apibara/fetch.ts 539–579) -/

/-- One page returned by `provider.getEvents`. An empty-string continuation
token would be falsy in JS; tokens here are `Option String` with `some`
non-empty. -/
structure EventsPage where
  events : List RawEvent
  continuation_token : Option String
  deriving Repr

/-- Final state of the pagination loop: accumulated events, number of
`getEvents` calls made, and whether the cap-hit-with-more-data warning was
logged. -/
structure PaginateResult where
  allEvents : List RawEvent
  pageCount : Nat
  warned : Bool
  deriving Repr

/-- The `do`/`while` pagination loop. `remote i` is the page returned by the
`i`-th `getEvents` call (the continuation token is threaded opaquely, so
pages are indexed by call number). `fuel` bounds the remaining iterations;
every reachable call satisfies `maxPages ≤ fuel + pageCount + 1`, which makes
the `fuel = 0` continue-branch unreachable (`paginateAux_fuel_irrelevant`
below): the loop body always runs at least once (`do`/`while`) and the
`pageCount >= MAX_PAGES` break fires before fuel can run out. -/
def paginateAux (remote : Nat → EventsPage) (limit maxPages : Nat) :
    Nat → Nat → List RawEvent → PaginateResult
  | fuel, pageCount, acc =>
    let resp := remote pageCount
    let acc2 := acc ++ resp.events
    let pc2 := pageCount + 1
    if limit ≤ acc2.length ∨ maxPages ≤ pc2 then
      -- Stop if we hit the limit or safety max; warn if more data available
      ⟨acc2, pc2, resp.continuation_token.isSome⟩
    else
      match resp.continuation_token with
      | none => ⟨acc2, pc2, false⟩
      | some _ =>
        match fuel with
        | 0 => ⟨acc2, pc2, false⟩
        | fuel' + 1 => paginateAux remote limit maxPages fuel' pc2 acc2

/-- The pagination loop of `fetchStarknetRpc` / `fetchViaRpc` with
`MAX_PAGES` as a parameter (10 in the source). -/
def paginate (remote : Nat → EventsPage) (limit maxPages : Nat) :
    PaginateResult :=
  paginateAux remote limit maxPages maxPages 0 []

/-! ### Facilitator filter (part_002 lines 111–124) -/

/-- Strip the zero padding after a `0x` prefix: the regex replace
`s.replace(/^0x0+/, '0x')` (dropping the maximal run of zeros is a no-op
when there is none, so the one-or-more in the regex is immaterial). -/
def stripHexZeros : List Char → List Char
  | '0' :: 'x' :: rest => '0' :: 'x' :: rest.dropWhile (· == '0')
  | l => l

/-- `s.toLowerCase().replace(/^0x0+/, '0x')` (ASCII lower-casing suffices
for hex addresses). -/
def normalizeAddr (s : String) : String :=
  String.mk (stripHexZeros (s.data.map Char.toLower))

/-- The facilitator filter applied to the decoded records. -/
def filterByFacilitator (records : List TransferEventData)
    (facilitatorAddress : String) : List TransferEventData :=
  records.filter fun event =>
    normalizeAddr event.sender == normalizeAddr facilitatorAddress

/-! ## Helper lemmas -/

/-- In the indexed branch, successful felt parses determine the whole
record: sender/recipient from `keys[1]`/`keys[2]`, amount felts from
`data[0]`/`data[1]`. -/
theorem parseEventCore_indexed (ev : RawEvent) (i : Nat) (cfg : SyncConfig)
    (fac : Facilitator) (fc : FacilitatorConfig) (bc : List (Nat × BlockMeta))
    (tc : List (String × TxMeta)) (now f t low high tfN : Nat)
    (hk : 3 ≤ ev.keys.length)
    (hf : toBigInt? (ev.keys[1]?.getD "") = some f)
    (ht : toBigInt? (ev.keys[2]?.getD "") = some t)
    (hl : toBigInt? (jsOrHexZero ev.data[0]?) = some low)
    (hh : toBigInt? (jsOrHexZero ev.data[1]?) = some high)
    (htf : toBigInt? (resolvedTxFrom tc ev.transaction_hash fc.address) = some tfN) :
    parseEventCore ev i cfg fac fc bc tc now = Except.ok (some
      { address := fc.token.address
        transaction_from := toHex tfN
        sender := toHex f
        recipient := toHex t
        amount := jsNumberOfNat (low + high * 2 ^ 128)
        block_timestamp := resolvedBlockTs bc ev.block_number now
        tx_hash := ev.transaction_hash
        chain := cfg.chain
        provider := cfg.provider
        decimals := fc.token.decimals
        facilitator_id := fac.id
        log_index := i }) := by
  simp [parseEventCore, felt!, hk, hf, ht, hl, hh, htf]
  rfl

/-- In the packed branch, successful felt parses determine the whole record:
sender/recipient from `data[0]`/`data[1]`, amount felts from
`data[2]`/`data[3]`. -/
theorem parseEventCore_packed (ev : RawEvent) (i : Nat) (cfg : SyncConfig)
    (fac : Facilitator) (fc : FacilitatorConfig) (bc : List (Nat × BlockMeta))
    (tc : List (String × TxMeta)) (now f t low high tfN : Nat)
    (hk : ev.keys.length < 3) (hd : 4 ≤ ev.data.length)
    (hf : toBigInt? (ev.data[0]?.getD "") = some f)
    (ht : toBigInt? (ev.data[1]?.getD "") = some t)
    (hl : toBigInt? (jsOrHexZero ev.data[2]?) = some low)
    (hh : toBigInt? (jsOrHexZero ev.data[3]?) = some high)
    (htf : toBigInt? (resolvedTxFrom tc ev.transaction_hash fc.address) = some tfN) :
    parseEventCore ev i cfg fac fc bc tc now = Except.ok (some
      { address := fc.token.address
        transaction_from := toHex tfN
        sender := toHex f
        recipient := toHex t
        amount := jsNumberOfNat (low + high * 2 ^ 128)
        block_timestamp := resolvedBlockTs bc ev.block_number now
        tx_hash := ev.transaction_hash
        chain := cfg.chain
        provider := cfg.provider
        decimals := fc.token.decimals
        facilitator_id := fac.id
        log_index := i }) := by
  have hk' : ¬ 3 ≤ ev.keys.length := by omega
  have hd' : ¬ ev.data.length < 4 := by omega
  simp [parseEventCore, felt!, hk', hd', hf, ht, hl, hh, htf]
  rfl

/-- A packed-form event with fewer than four data felts decodes to `null`. -/
theorem parseEventCore_packed_short (ev : RawEvent) (i : Nat)
    (cfg : SyncConfig) (fac : Facilitator) (fc : FacilitatorConfig)
    (bc : List (Nat × BlockMeta)) (tc : List (String × TxMeta)) (now : Nat)
    (hk : ev.keys.length < 3) (hd : ev.data.length < 4) :
    parseEventCore ev i cfg fac fc bc tc now = Except.ok none := by
  have hk' : ¬ 3 ≤ ev.keys.length := by omega
  simp [parseEventCore, hk', hd]
  rfl

/-- With at least three keys, the empty-keys guard of
`parseTransferEventWithCache` is inert and both decoders agree with the
shared core. -/
theorem parseTransferEventWithCache_of_keys (ev : RawEvent) (i : Nat)
    (cfg : SyncConfig) (fac : Facilitator) (fc : FacilitatorConfig)
    (bc : List (Nat × BlockMeta)) (tc : List (String × TxMeta)) (now : Nat)
    (hk : 1 ≤ ev.keys.length) :
    parseTransferEventWithCache ev i cfg fac fc bc tc now =
      parseEventCore ev i cfg fac fc bc tc now := by
  have : ¬ ev.keys.length < 1 := by omega
  simp [parseTransferEventWithCache, this]

/-- An index/element pair of a list is a member of its enumeration. -/
theorem mem_enum_of_getElem? {α : Type} {l : List α} {j : Nat} {a : α}
    (h : l[j]? = some a) : (j, a) ∈ l.enum :=
  List.mk_mem_enum_iff_getElem?.mpr h

/-- Any event that decodes to a record contributes that record to the
step-5 batch loop output, independently of the other events. -/
theorem mem_parseEventsLoop (events : List RawEvent) (cfg : SyncConfig)
    (fac : Facilitator) (fc : FacilitatorConfig) (bc : List (Nat × BlockMeta))
    (tc : List (String × TxMeta)) (now : Nat) (j : Nat) (e : RawEvent)
    (r : TransferEventData) (hget : events[j]? = some e)
    (hdec : keptRecord (parseTransferEventWithCache e j cfg fac fc bc tc now) =
      some r) :
    r ∈ parseEventsLoop events cfg fac fc bc tc now := by
  unfold parseEventsLoop
  exact List.mem_filterMap.mpr ⟨(j, e), mem_enum_of_getElem? hget, hdec⟩

/-! ## Claims -/

/-- C1: for every raw event whose keys array has length ≥ 3 (and whose felt
fields parse), both decoders take the sender from `keys[1]` and the
recipient from `keys[2]`, hex-normalized, and the amount low/high felts from
`data[0]`/`data[1]`; the resulting record is a function of the keys (and the
caches) alone in its sender/recipient fields, so neither is read from
`data`. -/
theorem indexed_form_reads_sender_recipient_from_keys (ev : RawEvent)
    (i : Nat) (cfg : SyncConfig) (fac : Facilitator) (fc : FacilitatorConfig)
    (bc : List (Nat × BlockMeta)) (tc : List (String × TxMeta))
    (now f t low high tfN : Nat)
    (hk : 3 ≤ ev.keys.length)
    (hf : toBigInt? (ev.keys[1]?.getD "") = some f)
    (ht : toBigInt? (ev.keys[2]?.getD "") = some t)
    (hl : toBigInt? (jsOrHexZero ev.data[0]?) = some low)
    (hh : toBigInt? (jsOrHexZero ev.data[1]?) = some high)
    (htf : toBigInt? (resolvedTxFrom tc ev.transaction_hash fc.address) = some tfN) :
    parseTransferEventWithCache ev i cfg fac fc bc tc now = Except.ok (some
      { address := fc.token.address
        transaction_from := toHex tfN
        sender := toHex f
        recipient := toHex t
        amount := jsNumberOfNat (low + high * 2 ^ 128)
        block_timestamp := resolvedBlockTs bc ev.block_number now
        tx_hash := ev.transaction_hash
        chain := cfg.chain
        provider := cfg.provider
        decimals := fc.token.decimals
        facilitator_id := fac.id
        log_index := i }) ∧
    parseTransferEvent ev i cfg fac fc bc tc now =
      parseTransferEventWithCache ev i cfg fac fc bc tc now := by
  have hcore := parseEventCore_indexed ev i cfg fac fc bc tc now f t low high
    tfN hk hf ht hl hh htf
  have hguard := parseTransferEventWithCache_of_keys ev i cfg fac fc bc tc now
    (by omega)
  exact ⟨hguard.trans hcore, by rw [hguard]; rfl⟩

/-- C2: for every raw event with fewer than 3 keys and fewer than 4 data
felts, both decoders return no record (`null`), and the batch loop continues
past it: any other event of the batch that decodes to a record still
contributes that record to the output. -/
theorem short_event_skipped_batch_continues (ev : RawEvent) (i : Nat)
    (cfg : SyncConfig) (fac : Facilitator) (fc : FacilitatorConfig)
    (bc : List (Nat × BlockMeta)) (tc : List (String × TxMeta)) (now : Nat)
    (hk : ev.keys.length < 3) (hd : ev.data.length < 4) :
    parseTransferEventWithCache ev i cfg fac fc bc tc now = Except.ok none ∧
    parseTransferEvent ev i cfg fac fc bc tc now = Except.ok none ∧
    ∀ (events : List RawEvent) (j : Nat) (e : RawEvent) (r : TransferEventData),
      events[j]? = some e →
      keptRecord (parseTransferEventWithCache e j cfg fac fc bc tc now) = some r →
      r ∈ parseEventsLoop events cfg fac fc bc tc now := by
  refine ⟨?_, parseEventCore_packed_short ev i cfg fac fc bc tc now hk hd,
    fun events j e r hget hdec =>
      mem_parseEventsLoop events cfg fac fc bc tc now j e r hget hdec⟩
  by_cases h1 : ev.keys.length < 1
  · simp [parseTransferEventWithCache, h1]
  · rw [parseTransferEventWithCache_of_keys ev i cfg fac fc bc tc now (by omega)]
    exact parseEventCore_packed_short ev i cfg fac fc bc tc now hk hd

/-- C10: an indexed-form event (≥ 3 keys) whose data array is present but
shorter than 2 still decodes to a record: each missing amount felt is read
as `'0x0'`; with an empty data array the amount is 0. -/
theorem indexed_missing_amount_felts_default_zero (ev : RawEvent) (i : Nat)
    (cfg : SyncConfig) (fac : Facilitator) (fc : FacilitatorConfig)
    (bc : List (Nat × BlockMeta)) (tc : List (String × TxMeta))
    (now f t low tfN : Nat)
    (hk : 3 ≤ ev.keys.length) (hd : ev.data.length < 2)
    (hf : toBigInt? (ev.keys[1]?.getD "") = some f)
    (ht : toBigInt? (ev.keys[2]?.getD "") = some t)
    (hl : toBigInt? (jsOrHexZero ev.data[0]?) = some low)
    (htf : toBigInt? (resolvedTxFrom tc ev.transaction_hash fc.address) = some tfN) :
    parseTransferEventWithCache ev i cfg fac fc bc tc now = Except.ok (some
      { address := fc.token.address
        transaction_from := toHex tfN
        sender := toHex f
        recipient := toHex t
        amount := jsNumberOfNat low
        block_timestamp := resolvedBlockTs bc ev.block_number now
        tx_hash := ev.transaction_hash
        chain := cfg.chain
        provider := cfg.provider
        decimals := fc.token.decimals
        facilitator_id := fac.id
        log_index := i }) ∧
    parseTransferEvent ev i cfg fac fc bc tc now =
      parseTransferEventWithCache ev i cfg fac fc bc tc now ∧
    (ev.data = [] → jsNumberOfNat low = 0) := by
  have h1 : ev.data[1]? = none := List.getElem?_eq_none (by omega)
  have hh : toBigInt? (jsOrHexZero ev.data[1]?) = some 0 := by
    rw [h1]; rfl
  have hcore := parseEventCore_indexed ev i cfg fac fc bc tc now f t low 0
    tfN hk hf ht hl hh htf
  have hguard := parseTransferEventWithCache_of_keys ev i cfg fac fc bc tc now
    (by omega)
  refine ⟨?_, by rw [hguard]; rfl, ?_⟩
  · rw [hguard, hcore]
    norm_num
  · intro hnil
    have : toBigInt? (jsOrHexZero ev.data[0]?) = some 0 := by
      rw [hnil]; rfl
    rw [this] at hl
    have : low = 0 := by injection hl; omega
    subst this
    rfl

/-- C8: when the block cache has no entry for the event's block, the event
still decodes to a record whose `block_timestamp` is the current wall-clock
time; when the transaction cache has no entry for its hash, the record's
`transaction_from` falls back to the configured facilitator address. A
resolution miss never causes a decode failure. -/
theorem resolution_miss_uses_fallbacks (ev : RawEvent) (i : Nat)
    (cfg : SyncConfig) (fac : Facilitator) (fc : FacilitatorConfig)
    (bc : List (Nat × BlockMeta)) (tc : List (String × TxMeta))
    (now f t low high a : Nat)
    (hk : 3 ≤ ev.keys.length)
    (hf : toBigInt? (ev.keys[1]?.getD "") = some f)
    (ht : toBigInt? (ev.keys[2]?.getD "") = some t)
    (hl : toBigInt? (jsOrHexZero ev.data[0]?) = some low)
    (hh : toBigInt? (jsOrHexZero ev.data[1]?) = some high)
    (hb : bc.lookup ev.block_number = none)
    (htx : tc.lookup ev.transaction_hash = none)
    (ha : toBigInt? fc.address = some a) :
    parseTransferEventWithCache ev i cfg fac fc bc tc now = Except.ok (some
      { address := fc.token.address
        transaction_from := toHex a
        sender := toHex f
        recipient := toHex t
        amount := jsNumberOfNat (low + high * 2 ^ 128)
        block_timestamp := now
        tx_hash := ev.transaction_hash
        chain := cfg.chain
        provider := cfg.provider
        decimals := fc.token.decimals
        facilitator_id := fac.id
        log_index := i }) ∧
    parseTransferEvent ev i cfg fac fc bc tc now =
      parseTransferEventWithCache ev i cfg fac fc bc tc now := by
  have hrtf : resolvedTxFrom tc ev.transaction_hash fc.address = fc.address := by
    simp [resolvedTxFrom, htx]
  have hrbt : resolvedBlockTs bc ev.block_number now = now := by
    simp [resolvedBlockTs, hb]
  have htf : toBigInt? (resolvedTxFrom tc ev.transaction_hash fc.address) =
      some a := by rw [hrtf]; exact ha
  have hcore := parseEventCore_indexed ev i cfg fac fc bc tc now f t low high
    a hk hf ht hl hh htf
  have hguard := parseTransferEventWithCache_of_keys ev i cfg fac fc bc tc now
    (by omega)
  rw [hrbt] at hcore
  exact ⟨hguard.trans hcore, by rw [hguard]; rfl⟩

/-- Membership in the `[...new Set(·)]` fold is membership in the
accumulator or the remaining input. -/
theorem mem_foldl_insertUniq {α : Type} [DecidableEq α] (l : List α) :
    ∀ (acc : List α) (x : α),
      x ∈ l.foldl insertUniq acc ↔ x ∈ acc ∨ x ∈ l := by
  induction l with
  | nil => intro acc x; simp
  | cons a l ih =>
    intro acc x
    rw [List.foldl_cons, ih]
    by_cases h : a ∈ acc
    · simp only [insertUniq, if_pos h, List.mem_cons]
      have : x = a → x ∈ acc := fun he => he ▸ h
      tauto
    · simp only [insertUniq, if_neg h, List.mem_append, List.mem_singleton,
        List.mem_cons]
      tauto

/-- The `[...new Set(·)]` fold preserves freedom from duplicates. -/
theorem nodup_foldl_insertUniq {α : Type} [DecidableEq α] (l : List α) :
    ∀ acc : List α, acc.Nodup → (l.foldl insertUniq acc).Nodup := by
  induction l with
  | nil => intro acc h; simpa using h
  | cons a l ih =>
    intro acc h
    rw [List.foldl_cons]
    refine ih _ ?_
    by_cases ha : a ∈ acc
    · simpa [insertUniq, ha] using h
    · simp only [insertUniq, if_neg ha, List.nodup_append, List.nodup_cons,
        List.nodup_nil, List.disjoint_singleton]
      exact ⟨h, by simp, ha⟩

/-- `uniqueList` has no duplicates. -/
theorem nodup_uniqueList {α : Type} [DecidableEq α] (l : List α) :
    (uniqueList l).Nodup :=
  nodup_foldl_insertUniq l [] List.nodup_nil

/-- `uniqueList` has the same members as its input. -/
theorem mem_uniqueList {α : Type} [DecidableEq α] (l : List α) (x : α) :
    x ∈ uniqueList l ↔ x ∈ l := by
  rw [uniqueList, mem_foldl_insertUniq]; simp

/-- `uniqueList` has exactly one entry per distinct input value. -/
theorem length_uniqueList {α : Type} [DecidableEq α] (l : List α) :
    (uniqueList l).length = l.toFinset.card := by
  have hset : (uniqueList l).toFinset = l.toFinset := by
    ext x
    simp [List.mem_toFinset, mem_uniqueList]
  calc (uniqueList l).length
      = (uniqueList l).toFinset.card :=
        (List.toFinset_card_of_nodup (nodup_uniqueList l)).symm
    _ = l.toFinset.card := by rw [hset]

/-- Looking up a key in a cache built over duplicate-free keys returns the
lookup outcome for input keys and nothing for others: successful keys are
recorded, failed keys are omitted. -/
theorem lookup_buildCache {κ β : Type} [DecidableEq κ] [BEq κ] [LawfulBEq κ]
    (f : κ → Option β) (keys : List κ) (hnd : keys.Nodup) (k : κ) :
    (buildCache f keys).lookup k = if k ∈ keys then f k else none := by
  induction keys with
  | nil => simp [buildCache]
  | cons k' ks ih =>
    rw [List.nodup_cons] at hnd
    obtain ⟨hk', hks⟩ := hnd
    by_cases hkk : k = k'
    · subst hkk
      cases hfk : f k with
      | some b => simp [buildCache, hfk, List.lookup]
      | none =>
        simp only [buildCache, hfk, List.mem_cons, true_or, if_true]
        rw [ih hks, if_neg hk']
    · have hbeq : (k == k') = false := beq_false_of_ne hkk
      cases hfk : f k' with
      | some b =>
        simp only [buildCache, hfk, List.lookup, hbeq]
        rw [ih hks]
        simp [List.mem_cons, hkk]
      | none =>
        simp only [buildCache, hfk]
        rw [ih hks]
        simp [List.mem_cons, hkk]

/-- C6: the resolution pass invokes the remote block lookup on exactly the
list `uniqueBlockNumbers events` (one invocation per element of
`buildCache`'s key list), which enumerates each distinct block number exactly
once — its length is the number M of distinct block numbers, every
referenced block number occurs in it exactly once, and no other key occurs —
and likewise for transaction hashes. -/
theorem distinct_keys_looked_up_exactly_once (events : List RawEvent) :
    ((uniqueBlockNumbers events).length =
        (events.map (·.block_number)).toFinset.card ∧
      ∀ b : Nat, (uniqueBlockNumbers events).count b =
        if b ∈ events.map (·.block_number) then 1 else 0) ∧
    ((uniqueTxHashes events).length =
        (events.map (·.transaction_hash)).toFinset.card ∧
      ∀ h : String, (uniqueTxHashes events).count h =
        if h ∈ events.map (·.transaction_hash) then 1 else 0) := by
  refine ⟨⟨length_uniqueList _, fun b => ?_⟩, ⟨length_uniqueList _, fun h => ?_⟩⟩
  · by_cases hb : b ∈ events.map (·.block_number)
    · rw [if_pos hb]
      exact List.count_eq_one_of_mem (nodup_uniqueList _)
        ((mem_uniqueList _ _).mpr hb)
    · rw [if_neg hb]
      exact List.count_eq_zero_of_not_mem
        (fun hc => hb ((mem_uniqueList _ _).mp hc))
  · by_cases hh : h ∈ events.map (·.transaction_hash)
    · rw [if_pos hh]
      exact List.count_eq_one_of_mem (nodup_uniqueList _)
        ((mem_uniqueList _ _).mpr hh)
    · rw [if_neg hh]
      exact List.count_eq_zero_of_not_mem
        (fun hc => hh ((mem_uniqueList _ _).mp hc))

/-- An event referencing block 7, used to exhibit the cache shape after a
failed lookup. -/
def evBlock7 : RawEvent := ⟨["0x1", "0x2", "0x3"], [], 7, "0xabc"⟩

/-- C9 counterexample: block 7 is an input key of the resolution pass over
`[evBlock7]`, but when its lookup fails all retries (the retry wrapper
returns `null`), the resulting cache map is empty — the key has no entry at
all, rather than an explicit absent entry. -/
theorem failed_key_omitted_from_cache_counterexample :
    7 ∈ uniqueBlockNumbers [evBlock7] ∧
    buildCache (fun _ => (none : Option BlockMeta))
      (uniqueBlockNumbers [evBlock7]) = [] ∧
    (buildCache (fun _ => (none : Option BlockMeta))
      (uniqueBlockNumbers [evBlock7])).lookup 7 = none :=
  ⟨by decide, by rfl, by rfl⟩

/-- C9 amended: after the resolution pass, a key has a cache entry exactly
when it is an input key whose lookup succeeded; a key that failed all
retries is omitted from the map (so downstream code cannot distinguish
"never looked up" from "could not be resolved" — both take the fallback
path), and the entry of each successful key is its lookup result. -/
theorem cache_entry_iff_lookup_succeeded (blockLookup : Nat → Option BlockMeta)
    (txLookup : String → Option TxMeta) (events : List RawEvent) (bn : Nat)
    (h : String) :
    (buildCache blockLookup (uniqueBlockNumbers events)).lookup bn =
      (if bn ∈ uniqueBlockNumbers events then blockLookup bn else none) ∧
    (buildCache txLookup (uniqueTxHashes events)).lookup h =
      (if h ∈ uniqueTxHashes events then txLookup h else none) :=
  ⟨lookup_buildCache _ _ (nodup_uniqueList _) _,
    lookup_buildCache _ _ (nodup_uniqueList _) _⟩

/-- C4: the facilitator filter retains exactly the records whose sender,
lower-cased and with the zero padding after `0x` stripped, equals the
configured address normalized the same way; in particular a record with
sender `0x00abc` is retained against the configured address `0xabc`, and a
record with sender `0xdef` is dropped (dropped, not an error: it is merely
absent from the output list). -/
theorem facilitator_filter_normalized_match (records : List TransferEventData)
    (addr : String) :
    (∀ e : TransferEventData, e ∈ filterByFacilitator records addr ↔
      e ∈ records ∧ normalizeAddr e.sender = normalizeAddr addr) ∧
    (∀ e ∈ records, e.sender = "0x00abc" →
      e ∈ filterByFacilitator records "0xabc") ∧
    (∀ e : TransferEventData, e.sender = "0xdef" →
      e ∉ filterByFacilitator records "0xabc") := by
  refine ⟨fun e => ?_, fun e he hs => ?_, fun e hs hmem => ?_⟩
  · simp [filterByFacilitator, List.mem_filter]
  · refine List.mem_filter.mpr ⟨he, ?_⟩
    rw [hs]
    decide
  · have := (List.mem_filter.mp hmem).2
    rw [hs] at this
    exact absurd (of_decide_eq_true this) (by decide)

/-! ## Concrete fixtures for witnesses -/

def cfgW : SyncConfig := ⟨"starknet", "alchemy-rpc", 1000⟩

def facW : Facilitator := ⟨"facilitator-1"⟩

def fcW : FacilitatorConfig := ⟨"0xaaa", ⟨"0x49d3", 6⟩⟩

/-- An indexed-form Transfer event: sender `0xAAA`, recipient `0xBBB`,
amount 100. -/
def evIndexed : RawEvent := ⟨["0x99", "0xAAA", "0xBBB"], ["0x64", "0x0"], 5, "0xdead"⟩

/-- An event that is neither indexed (1 key) nor packed (2 data felts). -/
def evShort : RawEvent := ⟨["0x99"], ["0x1", "0x2"], 3, "0xfeed"⟩

/-- An indexed-form event with an empty data array. -/
def evNoData : RawEvent := ⟨["0x99", "0xAAA", "0xBBB"], [], 9, "0xcafe"⟩

/-- The record `evIndexed` decodes to against empty caches at time 777. -/
def recIndexedW : TransferEventData :=
  ⟨"0x49d3", "0xaaa", "0xaaa", "0xbbb", 100, 777, "0xdead", "starknet",
    "alchemy-rpc", 6, "facilitator-1", 0⟩

/-- Witness for C1 at `evIndexed`. -/
theorem indexed_form_reads_sender_recipient_from_keys_witness :
    parseTransferEventWithCache evIndexed 0 cfgW facW fcW [] [] 777 =
      Except.ok (some
      { address := fcW.token.address
        transaction_from := toHex 2730
        sender := toHex 2730
        recipient := toHex 3003
        amount := jsNumberOfNat (100 + 0 * 2 ^ 128)
        block_timestamp := resolvedBlockTs [] evIndexed.block_number 777
        tx_hash := evIndexed.transaction_hash
        chain := cfgW.chain
        provider := cfgW.provider
        decimals := fcW.token.decimals
        facilitator_id := facW.id
        log_index := 0 }) ∧
    parseTransferEvent evIndexed 0 cfgW facW fcW [] [] 777 =
      parseTransferEventWithCache evIndexed 0 cfgW facW fcW [] [] 777 :=
  indexed_form_reads_sender_recipient_from_keys evIndexed 0 cfgW facW fcW [] []
    777 2730 3003 100 0 2730 (by decide) (by rfl) (by rfl) (by rfl) (by rfl)
    (by rfl)

/-- Witness for C2: `evShort` is skipped while `evIndexed` in the same batch
still yields its record. -/
theorem short_event_skipped_batch_continues_witness :
    parseTransferEventWithCache evShort 1 cfgW facW fcW [] [] 777 =
      Except.ok none ∧
    parseTransferEvent evShort 1 cfgW facW fcW [] [] 777 = Except.ok none ∧
    recIndexedW ∈ parseEventsLoop [evIndexed, evShort] cfgW facW fcW [] [] 777 := by
  obtain ⟨h1, h2, h3⟩ := short_event_skipped_batch_continues evShort 1 cfgW
    facW fcW [] [] 777 (by decide) (by decide)
  exact ⟨h1, h2, h3 [evIndexed, evShort] 0 evIndexed recIndexedW (by rfl) (by rfl)⟩

/-- Witness for C10 at `evNoData`. -/
theorem indexed_missing_amount_felts_default_zero_witness :
    parseTransferEventWithCache evNoData 2 cfgW facW fcW [] [] 42 =
      Except.ok (some
      { address := fcW.token.address
        transaction_from := toHex 2730
        sender := toHex 2730
        recipient := toHex 3003
        amount := jsNumberOfNat 0
        block_timestamp := resolvedBlockTs [] evNoData.block_number 42
        tx_hash := evNoData.transaction_hash
        chain := cfgW.chain
        provider := cfgW.provider
        decimals := fcW.token.decimals
        facilitator_id := facW.id
        log_index := 2 }) ∧
    parseTransferEvent evNoData 2 cfgW facW fcW [] [] 42 =
      parseTransferEventWithCache evNoData 2 cfgW facW fcW [] [] 42 ∧
    (evNoData.data = [] → jsNumberOfNat 0 = 0) :=
  indexed_missing_amount_felts_default_zero evNoData 2 cfgW facW fcW [] [] 42
    2730 3003 0 2730 (by decide) (by decide) (by rfl) (by rfl) (by rfl) (by rfl)

/-- Witness for C8 at `evIndexed` with empty caches. -/
theorem resolution_miss_uses_fallbacks_witness :
    parseTransferEventWithCache evIndexed 0 cfgW facW fcW [] [] 777 =
      Except.ok (some
      { address := fcW.token.address
        transaction_from := toHex 2730
        sender := toHex 2730
        recipient := toHex 3003
        amount := jsNumberOfNat (100 + 0 * 2 ^ 128)
        block_timestamp := 777
        tx_hash := evIndexed.transaction_hash
        chain := cfgW.chain
        provider := cfgW.provider
        decimals := fcW.token.decimals
        facilitator_id := facW.id
        log_index := 0 }) ∧
    parseTransferEvent evIndexed 0 cfgW facW fcW [] [] 777 =
      parseTransferEventWithCache evIndexed 0 cfgW facW fcW [] [] 777 :=
  resolution_miss_uses_fallbacks evIndexed 0 cfgW facW fcW [] [] 777 2730 3003
    100 0 2730 (by decide) (by rfl) (by rfl) (by rfl) (by rfl) (by rfl)
    (by rfl) (by rfl)

/-- A record whose sender has zero padding after the `0x` prefix. -/
def recPadded : TransferEventData :=
  ⟨"0x49d3", "0xaaa", "0x00abc", "0xabc", 1, 0, "0x1", "starknet",
    "alchemy-rpc", 6, "facilitator-1", 0⟩

/-- A record from a different sender. -/
def recOther : TransferEventData :=
  ⟨"0x49d3", "0xaaa", "0xdef", "0xabc", 2, 0, "0x2", "starknet",
    "alchemy-rpc", 6, "facilitator-1", 1⟩

/-- Witness for C4 on a two-record list. -/
theorem facilitator_filter_normalized_match_witness :
    (recPadded ∈ filterByFacilitator [recPadded, recOther] "0xabc" ↔
      recPadded ∈ [recPadded, recOther] ∧
      normalizeAddr recPadded.sender = normalizeAddr "0xabc") ∧
    recPadded ∈ filterByFacilitator [recPadded, recOther] "0xabc" ∧
    recOther ∉ filterByFacilitator [recPadded, recOther] "0xabc" := by
  obtain ⟨h1, h2, h3⟩ :=
    facilitator_filter_normalized_match [recPadded, recOther] "0xabc"
  exact ⟨h1 recPadded, h2 recPadded (by decide) (by rfl), h3 recOther (by rfl)⟩

/-! ## Amount reconstruction (C3) -/

/-- The felt `2 ^ 128 - 1`, the maximal u128. -/
def maxFelt : String := "0xffffffffffffffffffffffffffffffff"

/-- An indexed-form Transfer whose amount felts are both maximal, so the
exact u256 amount is `2 ^ 256 - 1`. -/
def evMaxAmount : RawEvent :=
  ⟨["0x99", "0xaaa", "0xbbb"], [maxFelt, maxFelt], 1, "0x1"⟩

set_option maxRecDepth 10000 in
/-- C3 counterexample: at maximal 128-bit low/high felts the decoded
record's `amount` field is `Number(2 ^ 256 - 1) = 2 ^ 256`, not the exact
value `low + high * 2 ^ 128 = 2 ^ 256 - 1`: the claim's equality fails at
this input because the source stores `Number(amount)`. -/
theorem amount_field_exact_counterexample :
    toBigInt? maxFelt = some (2 ^ 128 - 1) ∧
    (keptRecord (parseTransferEventWithCache evMaxAmount 0 cfgW facW fcW [] []
        0)).map (fun r => r.amount) = some (2 ^ 256) ∧
    (2 : Nat) ^ 256 ≠ (2 ^ 128 - 1) + (2 ^ 128 - 1) * 2 ^ 128 :=
  ⟨by decide, by decide, by decide⟩

/-- C3 amended: the u256 reconstruction itself is exact — `u256FromFelts`
returns exactly `low + high * 2 ^ 128`, and the decoder computes the same
value in both branches — but the record's `amount` field stores the JS
`Number` conversion of that value, which coincides with it exactly when the
value is below `2 ^ 53` (in particular for `high = 0` and small `low`), and
not in general for maximal 128-bit felts. -/
theorem amount_reconstruction_amended :
    (∀ (lowS highS : String) (low high : Nat),
      toBigInt? lowS = some low → toBigInt? highS = some high →
      u256FromFelts lowS highS = Except.ok (low + high * 2 ^ 128)) ∧
    (∀ n : Nat, n < 2 ^ 53 → jsNumberOfNat n = n) ∧
    (∀ (ev : RawEvent) (i : Nat) (cfg : SyncConfig) (fac : Facilitator)
      (fc : FacilitatorConfig) (bc : List (Nat × BlockMeta))
      (tc : List (String × TxMeta)) (now f t low high tfN : Nat),
      3 ≤ ev.keys.length →
      toBigInt? (ev.keys[1]?.getD "") = some f →
      toBigInt? (ev.keys[2]?.getD "") = some t →
      toBigInt? (jsOrHexZero ev.data[0]?) = some low →
      toBigInt? (jsOrHexZero ev.data[1]?) = some high →
      toBigInt? (resolvedTxFrom tc ev.transaction_hash fc.address) = some tfN →
      (keptRecord (parseTransferEventWithCache ev i cfg fac fc bc tc now)).map
        (fun r => r.amount) = some (jsNumberOfNat (low + high * 2 ^ 128))) ∧
    (∀ (ev : RawEvent) (i : Nat) (cfg : SyncConfig) (fac : Facilitator)
      (fc : FacilitatorConfig) (bc : List (Nat × BlockMeta))
      (tc : List (String × TxMeta)) (now f t low high tfN : Nat),
      1 ≤ ev.keys.length → ev.keys.length < 3 → 4 ≤ ev.data.length →
      toBigInt? (ev.data[0]?.getD "") = some f →
      toBigInt? (ev.data[1]?.getD "") = some t →
      toBigInt? (jsOrHexZero ev.data[2]?) = some low →
      toBigInt? (jsOrHexZero ev.data[3]?) = some high →
      toBigInt? (resolvedTxFrom tc ev.transaction_hash fc.address) = some tfN →
      (keptRecord (parseTransferEventWithCache ev i cfg fac fc bc tc now)).map
        (fun r => r.amount) = some (jsNumberOfNat (low + high * 2 ^ 128))) := by
  refine ⟨fun lowS highS low high h1 h2 => ?_, fun n hn => ?_,
    fun ev i cfg fac fc bc tc now f t low high tfN hk hf ht hl hh htf => ?_,
    fun ev i cfg fac fc bc tc now f t low high tfN hk1 hk3 hd hf ht hl hh htf => ?_⟩
  · simp [u256FromFelts, felt!, h1, h2]
    rfl
  · unfold jsNumberOfNat
    rw [if_pos hn]
  · rw [parseTransferEventWithCache_of_keys ev i cfg fac fc bc tc now (by omega),
      parseEventCore_indexed ev i cfg fac fc bc tc now f t low high tfN hk hf
        ht hl hh htf]
    rfl
  · rw [parseTransferEventWithCache_of_keys ev i cfg fac fc bc tc now hk1,
      parseEventCore_packed ev i cfg fac fc bc tc now f t low high tfN hk3 hd
        hf ht hl hh htf]
    rfl

/-- A packed-form Transfer event: sender `0xCCC`, recipient `0xDDD`,
amount 200. -/
def evPacked : RawEvent :=
  ⟨["0x99"], ["0xCCC", "0xDDD", "0xC8", "0x0"], 5, "0xbeef"⟩

/-- Witness for the amended C3 on small and packed inputs. -/
theorem amount_reconstruction_amended_witness :
    u256FromFelts "0x64" "0x0" = Except.ok (100 + 0 * 2 ^ 128) ∧
    jsNumberOfNat 100 = 100 ∧
    (keptRecord (parseTransferEventWithCache evIndexed 0 cfgW facW fcW [] []
      777)).map (fun r => r.amount) = some (jsNumberOfNat (100 + 0 * 2 ^ 128)) ∧
    (keptRecord (parseTransferEventWithCache evPacked 1 cfgW facW fcW [] []
      777)).map (fun r => r.amount) = some (jsNumberOfNat (200 + 0 * 2 ^ 128)) := by
  obtain ⟨h1, h2, h3, h4⟩ := amount_reconstruction_amended
  exact ⟨h1 "0x64" "0x0" 100 0 (by rfl) (by rfl), h2 100 (by decide),
    h3 evIndexed 0 cfgW facW fcW [] [] 777 2730 3003 100 0 2730 (by decide)
      (by rfl) (by rfl) (by rfl) (by rfl) (by rfl),
    h4 evPacked 1 cfgW facW fcW [] [] 777 3276 3549 200 0 2730 (by decide)
      (by decide) (by decide) (by rfl) (by rfl) (by rfl) (by rfl) (by rfl)⟩

/-! ## Retry wrapper behaviour (C7) -/

/-- A call whose first attempt is rate-limited and whose retry then fails
with an unrelated error. -/
def fnRateThenOther : Nat → Except String Nat := fun i =>
  if i = 0 then Except.error "Rate limit" else Except.error "boom"

/-- C7 counterexample: with 2 attempts, a rate-limited first attempt
followed by a non-rate-limit error on the final attempt is swallowed — the
call sleeps once and returns `null` instead of propagating `"boom"`. The
claim that any non-rate-limit error is propagated immediately without
retrying fails at this input. -/
theorem nonratelimit_error_swallowed_counterexample :
    retryWithBackoff fnRateThenOther 2 300 =
      ⟨Except.ok none, [300]⟩ ∧
    fnRateThenOther 1 = Except.error "boom" ∧
    isRateLimitMsg "boom" = false :=
  ⟨rfl, rfl, by decide⟩

/-- If every attempt that can be reached fails with a rate-limited error,
the loop exhausts its attempts and returns `null` (never a thrown error). -/
theorem retryFrom_allRateLimited {α : Type} (fn : Nat → Except String α)
    (maxR baseD : Nat)
    (hall : ∀ i, i < maxR → ∃ e, fn i = Except.error e ∧ isRateLimitMsg e = true) :
    ∀ (fuel attempt : Nat), attempt + fuel = maxR →
      (retryFrom fn maxR baseD fuel attempt).outcome = Except.ok none := by
  intro fuel
  induction fuel with
  | zero => intro attempt _; rfl
  | succ n ih =>
    intro attempt hsum
    obtain ⟨e, hfe, hrl⟩ := hall attempt (by omega)
    by_cases hlt : attempt < maxR - 1
    · simp only [retryFrom, hfe]
      rw [if_pos (by simp [hrl, hlt])]
      simpa using ih (attempt + 1) (by omega)
    · have hatt : attempt = maxR - 1 := by omega
      simp only [retryFrom, hfe]
      rw [if_neg (by simp [hlt]), if_pos (by simp [hatt])]

/-- C7 amended: a non-rate-limit error on an attempt with retries remaining
(in particular the first attempt when `maxRetries ≥ 2`) is propagated
immediately, with no retry and no sleep; but on the final attempt any error
— rate-limited or not — yields the explicit `null` outcome, and when every
attempt fails rate-limited the call returns `null` after exhausting
retries, never throwing. -/
theorem retry_propagation_amended :
    (∀ {α : Type} (fn : Nat → Except String α) (maxR baseD : Nat) (e : String),
      2 ≤ maxR → fn 0 = Except.error e → isRateLimitMsg e = false →
      retryWithBackoff fn maxR baseD = ⟨Except.error e, []⟩) ∧
    (∀ {α : Type} (fn : Nat → Except String α) (maxR baseD : Nat),
      (∀ i, i < maxR → ∃ e, fn i = Except.error e ∧ isRateLimitMsg e = true) →
      (retryWithBackoff fn maxR baseD).outcome = Except.ok none) := by
  constructor
  · intro α fn maxR baseD e h2 h0 he
    obtain ⟨k, rfl⟩ := Nat.exists_eq_add_of_le h2
    rw [retryWithBackoff, show 2 + k = k + 1 + 1 from by omega]
    simp only [retryFrom, h0, he]
    rw [if_neg (by simp), if_neg (by simp)]
  · intro α fn maxR baseD hall
    exact retryFrom_allRateLimited fn maxR baseD hall maxR 0 (by omega)

/-- A call that always fails with a non-rate-limit error. -/
def fnAlwaysBoom : Nat → Except String Nat := fun _ => Except.error "boom"

/-- A call that always fails rate-limited. -/
def fnAlwaysRate : Nat → Except String Nat := fun _ => Except.error "Rate limit"

/-- Witness for the amended C7. -/
theorem retry_propagation_amended_witness :
    retryWithBackoff fnAlwaysBoom 3 1000 = ⟨Except.error "boom", []⟩ ∧
    (retryWithBackoff fnAlwaysRate 2 300).outcome = Except.ok none := by
  obtain ⟨h1, h2⟩ := retry_propagation_amended
  exact ⟨h1 fnAlwaysBoom 3 1000 "boom" (by omega) (by rfl) (by decide),
    h2 fnAlwaysRate 2 300 (fun i _ => ⟨"Rate limit", rfl, by decide⟩)⟩

/-! ## Pagination behaviour (C5) -/

/-- When a page pushes the accumulated count to the cap, or exhausts the
page budget, the loop stops after that page; the warning flag is set exactly
when a continuation token was still present. -/
theorem paginateAux_stop_cap (remote : Nat → EventsPage) (limit maxPages fuel
    pageCount : Nat) (acc : List RawEvent)
    (hcap : limit ≤ (acc ++ (remote pageCount).events).length ∨
      maxPages ≤ pageCount + 1) :
    paginateAux remote limit maxPages fuel pageCount acc =
      ⟨acc ++ (remote pageCount).events, pageCount + 1,
        (remote pageCount).continuation_token.isSome⟩ := by
  rw [paginateAux.eq_def]
  exact if_pos hcap

/-- When no cap is hit and the page carries no continuation token, the loop
stops after that page without a warning. -/
theorem paginateAux_stop_notoken (remote : Nat → EventsPage) (limit maxPages
    fuel pageCount : Nat) (acc : List RawEvent)
    (hcap : ¬ (limit ≤ (acc ++ (remote pageCount).events).length ∨
      maxPages ≤ pageCount + 1))
    (htok : (remote pageCount).continuation_token = none) :
    paginateAux remote limit maxPages fuel pageCount acc =
      ⟨acc ++ (remote pageCount).events, pageCount + 1, false⟩ := by
  simp only [paginateAux.eq_def, htok, if_neg hcap]

/-- When no cap is hit and a continuation token is present, the loop
continues with the accumulated events. -/
theorem paginateAux_continue (remote : Nat → EventsPage) (limit maxPages fuel
    pageCount : Nat) (acc : List RawEvent) (tok : String)
    (hcap : ¬ (limit ≤ (acc ++ (remote pageCount).events).length ∨
      maxPages ≤ pageCount + 1))
    (htok : (remote pageCount).continuation_token = some tok) :
    paginateAux remote limit maxPages (fuel + 1) pageCount acc =
      paginateAux remote limit maxPages fuel (pageCount + 1)
        (acc ++ (remote pageCount).events) := by
  conv_lhs => rw [paginateAux.eq_def]
  simp only [htok, if_neg hcap]

/-- C5: the pagination loop stops exactly at token exhaustion or at a cap,
warning when a cap cut it short. First part: a remote that returns
continuation tokens on its first three pages and none on the fourth, with
the caps unreached, is queried exactly 4 times and all 4 pages' events are
accumulated, with no warning. Second part: when the first page already
reaches the results cap while its continuation token is still present, the
loop stops after exactly that call and the more-data-available warning is
emitted. -/
theorem pagination_stop_conditions :
    (∀ (remote : Nat → EventsPage) (limit : Nat),
      (∀ i, i < 3 → (remote i).continuation_token.isSome = true) →
      (remote 3).continuation_token = none →
      ((remote 0).events ++ (remote 1).events ++ (remote 2).events ++
        (remote 3).events).length < limit →
      paginate remote limit 10 =
        ⟨(remote 0).events ++ (remote 1).events ++ (remote 2).events ++
          (remote 3).events, 4, false⟩) ∧
    (∀ (remote : Nat → EventsPage) (limit : Nat),
      limit ≤ (remote 0).events.length →
      (remote 0).continuation_token.isSome = true →
      paginate remote limit 10 = ⟨(remote 0).events, 1, true⟩) := by
  constructor
  · intro remote limit htok h3 hlen
    obtain ⟨t0, h0⟩ := Option.isSome_iff_exists.mp (htok 0 (by omega))
    obtain ⟨t1, h1⟩ := Option.isSome_iff_exists.mp (htok 1 (by omega))
    obtain ⟨t2, h2⟩ := Option.isSome_iff_exists.mp (htok 2 (by omega))
    have htot := hlen
    simp only [List.length_append] at htot
    rw [paginate]
    nth_rewrite 2 [show (10 : Nat) = 9 + 1 from rfl]
    rw [paginateAux_continue remote limit 10 9 0 [] t0
        (by simp [List.length_append]; omega) h0,
      show (9 : Nat) = 8 + 1 from rfl,
      paginateAux_continue remote limit 10 8 1 _ t1
        (by simp [List.length_append]; omega) h1,
      show (8 : Nat) = 7 + 1 from rfl,
      paginateAux_continue remote limit 10 7 2 _ t2
        (by simp [List.length_append]; omega) h2,
      paginateAux_stop_notoken remote limit 10 7 3 _
        (by simp [List.length_append]; omega) h3]
    simp [List.append_assoc]
  · intro remote limit hcap htok
    rw [paginate,
      paginateAux_stop_cap remote limit 10 10 0 []
        (Or.inl (by simpa using hcap))]
    simp [htok]

/-- A minimal raw event for pagination fixtures. -/
def pageEv (i : Nat) : RawEvent := ⟨["0x99"], [], i, "0xt"⟩

/-- A remote with tokens on calls 0–2 and none on call 3. -/
def remoteFour : Nat → EventsPage := fun i =>
  if i < 3 then ⟨[pageEv i], some "token"⟩ else ⟨[pageEv 3], none⟩

/-- A remote whose first page already meets the results cap with a token
still present. -/
def remoteCapped : Nat → EventsPage := fun _ =>
  ⟨[pageEv 0, pageEv 1], some "token"⟩

/-- Witness for C5. -/
theorem pagination_stop_conditions_witness :
    paginate remoteFour 1000 10 =
      ⟨(remoteFour 0).events ++ (remoteFour 1).events ++
        (remoteFour 2).events ++ (remoteFour 3).events, 4, false⟩ ∧
    paginate remoteCapped 2 10 = ⟨(remoteCapped 0).events, 1, true⟩ := by
  obtain ⟨h1, h2⟩ := pagination_stop_conditions
  exact ⟨h1 remoteFour 1000 (by decide) (by rfl) (by decide),
    h2 remoteCapped 2 (by decide) (by rfl)⟩

end X402Sync
